import Mathlib

/-!
Shallow embedding of the allmysat catalog reconciliation engine
(satellite / TLE / transmitter sync cron jobs) and proofs about it.

The definitions below are translated from the TypeScript/JavaScript
sources of the repository:
  - src/api/cron/sync.js            (pages-router sync handler)
  - src/app/api/cron/decayed/route.ts (decay job)
  - src/lib/supabase.ts             (batch writers)
  - the app-router TLE sync route   (century-pivot epoch derivation)
JavaScript machine behaviour that matters here (falsy coercion with
the or-operator, Map built from pairs with later keys overwriting,
String.prototype.substring, parseInt) is modelled explicitly.
-/

namespace AllMySat

/-- Model of the JavaScript values that appear in transmitter fields:
null or undefined, numbers, and strings. -/
inductive JSVal where
  | vnull : JSVal
  | num : Int → JSVal
  | str : String → JSVal
deriving DecidableEq, Repr

/-- JavaScript falsiness for the values we model: null/undefined, 0
and the empty string are falsy. -/
def JSVal.falsy : JSVal → Bool
  | .vnull => true
  | .num n => n == 0
  | .str s => s == ""

/-- The JavaScript expression v-or-null (written with the or-operator in
the source): yields null when v is falsy, otherwise v itself. Used by
the sync job to normalise transmitter fields before storing/comparing. -/
def orNull (v : JSVal) : JSVal := if v.falsy then JSVal.vnull else v

/-- A transmitter entry as returned by the registry feed
(db.satnogs.org), after JSON parsing. The description may be absent. -/
structure ApiTx where
  description : Option String
  mode : JSVal
  alive : Option Bool
  uplink_low : JSVal
  uplink_high : JSVal
  downlink_low : JSVal
  downlink_high : JSVal
deriving DecidableEq, Repr

/-- The reconciliation key of a feed entry: the source computes
description-or-empty-string (falsy descriptions collapse to the empty
string). -/
def descKey (tx : ApiTx) : String := tx.description.getD ""

/-- The source computes alive as: tx.alive strictly-unequal-to false,
so an absent liveness flag counts as alive. -/
def aliveVal (tx : ApiTx) : Bool := tx.alive != some false

/-- A transmitter row already present in the store, as selected by the
sync handler. -/
structure ExistingTx where
  id : Nat
  description : String
  mode : JSVal
  alive : Bool
  uplink_low : JSVal
  uplink_high : JSVal
  downlink_low : JSVal
  downlink_high : JSVal
deriving DecidableEq, Repr

/-- Lookup in a JavaScript Map built from a list of (description, row)
pairs: when several rows share a description the later pair overwrites
the earlier one, so the lookup returns the last matching row. -/
def mapGetLast (l : List ExistingTx) (d : String) : Option ExistingTx :=
  (l.filter (fun tx => tx.description == d)).getLast?

/-- Row shape pushed onto the transmitter insert buffer by the sync
handler. -/
structure TxInsertRow where
  satellite_id : Nat
  description : String
  mode : JSVal
  alive : Bool
  uplink_low : JSVal
  uplink_high : JSVal
  downlink_low : JSVal
  downlink_high : JSVal
deriving DecidableEq, Repr

/-- Row shape pushed onto the transmitter update buffer (keyed by the
existing row id; the description itself is not part of the update). -/
structure TxUpdateRow where
  id : Nat
  mode : JSVal
  alive : Bool
  uplink_low : JSVal
  uplink_high : JSVal
  downlink_low : JSVal
  downlink_high : JSVal
deriving DecidableEq, Repr

/-- Insert row built from a feed entry, with all falsy fields coerced to
null exactly as the source writes them. -/
def insertRowOf (satelliteId : Nat) (tx : ApiTx) : TxInsertRow :=
  { satellite_id := satelliteId
    description := descKey tx
    mode := orNull tx.mode
    alive := aliveVal tx
    uplink_low := orNull tx.uplink_low
    uplink_high := orNull tx.uplink_high
    downlink_low := orNull tx.downlink_low
    downlink_high := orNull tx.downlink_high }

/-- Update row built from a feed entry for an existing row id. -/
def updateRowOf (exId : Nat) (tx : ApiTx) : TxUpdateRow :=
  { id := exId
    mode := orNull tx.mode
    alive := aliveVal tx
    uplink_low := orNull tx.uplink_low
    uplink_high := orNull tx.uplink_high
    downlink_low := orNull tx.downlink_low
    downlink_high := orNull tx.downlink_high }

/-- The change test of the sync handler: an existing row differs from a
feed entry when mode, liveness or any of the four frequency bounds
differs, the feed side being coerced falsy-to-null first. -/
def hasChanged (existing : ExistingTx) (tx : ApiTx) : Bool :=
  existing.mode != orNull tx.mode ||
  existing.alive != aliveVal tx ||
  existing.uplink_low != orNull tx.uplink_low ||
  existing.uplink_high != orNull tx.uplink_high ||
  existing.downlink_low != orNull tx.downlink_low ||
  existing.downlink_high != orNull tx.downlink_high

/-- The three pending-write collections produced by the transmitter
reconciliation of one entity. -/
structure TxDiff where
  inserts : List TxInsertRow
  updates : List TxUpdateRow
  deletes : List Nat
deriving DecidableEq, Repr

/-- Transmitter reconciliation of one entity as written in the sync
handler: inserts are the feed entries whose key is absent from the
existing map, updates are the feed entries whose key hits the existing
map and whose fields changed, deletes are the existing rows whose
description is absent from the feed map. -/
def txDiff (satelliteId : Nat) (existingTransmitters : List ExistingTx)
    (apiTransmitters : List ApiTx) : TxDiff :=
  let toAdd := apiTransmitters.filter
    (fun tx => (mapGetLast existingTransmitters (descKey tx)).isNone)
  let inserts := toAdd.map (insertRowOf satelliteId)
  let updates := apiTransmitters.filterMap (fun tx =>
    match mapGetLast existingTransmitters (descKey tx) with
    | some ex => if hasChanged ex tx then some (updateRowOf ex.id tx) else none
    | none => none)
  let deletes := (existingTransmitters.filter
    (fun ex => ! apiTransmitters.any (fun tx => descKey tx == ex.description))).map
    (fun ex => ex.id)
  { inserts := inserts, updates := updates, deletes := deletes }

/-- The description multiset of an entity after one reconciliation run:
existing rows whose id was not deleted keep their description (updates
do not carry a description), and each insert contributes its own. -/
def finalDescriptions (satelliteId : Nat) (existingTransmitters : List ExistingTx)
    (apiTransmitters : List ApiTx) : List String :=
  let d := txDiff satelliteId existingTransmitters apiTransmitters
  (existingTransmitters.filter (fun ex => ! d.deletes.contains ex.id)).map
      (fun ex => ex.description)
    ++ d.inserts.map (fun r => r.description)

/-- JavaScript String.prototype.substring restricted to start ≤ stop,
with the usual clamping past the end of the string. The inputs here are
ASCII element lines, so Lean characters coincide with UTF-16 units. -/
def jsSubstring (s : String) (start stop : Nat) : String :=
  ((s.toList.drop start).take (stop - start)).asString

/-- Split a character list at every occurrence of the separator. -/
def splitCharList (sep : Char) : List Char → List (List Char)
  | [] => [[]]
  | c :: cs =>
    if c = sep then [] :: splitCharList sep cs
    else
      match splitCharList sep cs with
      | [] => [[c]]
      | p :: ps => (c :: p) :: ps

/-- JavaScript String.prototype.split with a one-character separator
(the source only ever splits on a newline or a comma). -/
def jsSplit (sep : Char) (s : String) : List String :=
  (splitCharList sep s.data).map List.asString

/-- JavaScript String.prototype.trim: strip leading and trailing
whitespace. -/
def jsTrim (s : String) : String :=
  (((s.data.dropWhile Char.isWhitespace).reverse.dropWhile Char.isWhitespace).reverse).asString

/-- Does the string end with the given character. -/
def lastCharIs (c : Char) (s : String) : Bool := s.data.getLast? == some c

/-- Does the string start with the given character. -/
def headCharIs (c : Char) (s : String) : Bool := s.data.head? == some c

/-- Drop the first character. -/
def dropFirstChar (s : String) : String := (s.data.drop 1).asString

/-- Drop the last character. -/
def dropLastChar (s : String) : String := s.data.dropLast.asString

/-- Value of a leading run of decimal digits; none when the run is
empty (parseInt would yield NaN). -/
def digitsPrefixVal (cs : List Char) : Option Nat :=
  let ds := cs.takeWhile Char.isDigit
  if ds.isEmpty then none
  else some (ds.foldl (fun acc c => acc * 10 + (c.toNat - 48)) 0)

/-- JavaScript parseInt(s, 10): skip leading whitespace, optional sign,
then the longest run of decimal digits; no digits parsed gives NaN,
modelled as none. -/
def jsParseInt (s : String) : Option Int :=
  let cs := s.toList.dropWhile (fun c => c.isWhitespace)
  match cs with
  | '-' :: rest => (digitsPrefixVal rest).map (fun n => -(n : Int))
  | '+' :: rest => (digitsPrefixVal rest).map (fun n => (n : Int))
  | _ => (digitsPrefixVal cs).map (fun n => (n : Int))

/-- Epoch derivation as written in src/api/cron/sync.js: characters
19 to 20 of the first line are the 2-digit year, 21 to 32 the fractional
day, and the century is hard-coded to 20. -/
def epochSyncJs (tleLine1 : String) : String :=
  let yearStr := jsSubstring tleLine1 18 20
  let dayStr := jsSubstring tleLine1 20 32
  "20" ++ yearStr ++ "-" ++ dayStr

/-- Epoch derivation as written in the app-router TLE sync route: same
fields, but the century comes from the pivot rule (parsed year at
least 57 gives 19, otherwise 20; an unparsable year compares false
against 57 and yields 20, as NaN comparisons do in JavaScript). -/
def epochPivot (tleLine1 : String) : String :=
  let yearStr := jsSubstring tleLine1 18 20
  let dayStr := jsSubstring tleLine1 20 32
  let century :=
    match jsParseInt yearStr with
    | some y => if y ≥ 57 then "19" else "20"
    | none => "20"
  century ++ yearStr ++ "-" ++ dayStr

/-- Line selection of the orbital-element fetcher: trim the body, split
on newlines; fewer than 2 lines is no data; 3 lines means a leading
name line, so use lines 2 and 3; otherwise use lines 1 and 2; an empty
selected line (falsy after trim) is no data. -/
def parseTLELines (tleText : String) : Option (String × String) :=
  let tleLines := jsSplit '\n' (jsTrim tleText)
  if tleLines.length < 2 then none
  else
    let tleLine1 :=
      jsTrim (if tleLines.length == 3 then tleLines.getD 1 "" else tleLines.getD 0 "")
    let tleLine2 :=
      jsTrim (if tleLines.length == 3 then tleLines.getD 2 "" else tleLines.getD 1 "")
    if tleLine1 == "" || tleLine2 == "" then none
    else some (tleLine1, tleLine2)

/-- An existing orbital-element row from the bulk snapshot. -/
structure TLERow where
  satellite_id : Nat
  tle_line1 : String
  tle_line2 : String
deriving DecidableEq, Repr

/-- The orbital diff test of the sync handler: changed when there is no
existing record or either line differs byte-for-byte. -/
def tleChanged (existingTLE : Option TLERow) (tleLine1 tleLine2 : String) : Bool :=
  match existingTLE with
  | none => true
  | some t => t.tle_line1 != tleLine1 || t.tle_line2 != tleLine2

/-- An HTTP response as the pipelines see it: the ok flag (status in the
2xx range) and the body text. -/
structure HttpResponse where
  ok : Bool
  body : String
deriving DecidableEq, Repr

/-- Return value of the TLE sub-pipeline in the sync handler: the source
returns the string updated, the string unchanged, or null. -/
inductive TLEOutcome where
  | updated
  | unchanged
  | noData
deriving DecidableEq, Repr

/-- Row shape pushed onto the orbital upsert buffer (the updated_at
timestamp is omitted from the model). -/
structure TLEUpsert where
  satellite_id : Nat
  tle_line1 : String
  tle_line2 : String
  epoch : String
  source : String
deriving DecidableEq, Repr

/-- The TLE sub-pipeline of processSatellite in src/api/cron/sync.js.
Fetch or body-read failures are caught inside this sub-pipeline and
mapped to null; a non-2xx response, too few lines or an empty line give
null; otherwise the fetched lines are diffed against the snapshot and a
changed record appends one upsert. -/
def tlePipeline (satelliteId : Nat) (existingTLE : Option TLERow)
    (fetchResult : Except String HttpResponse) : TLEOutcome × List TLEUpsert :=
  match fetchResult with
  | .error _ => (.noData, [])
  | .ok resp =>
    if !resp.ok then (.noData, [])
    else
      match parseTLELines resp.body with
      | none => (.noData, [])
      | some (l1, l2) =>
        if tleChanged existingTLE l1 l2 then
          (.updated,
           [{ satellite_id := satelliteId, tle_line1 := l1, tle_line2 := l2,
              epoch := epochSyncJs l1, source := "celestrak" }])
        else (.unchanged, [])

/-- A transport-level fetch failure: either an abort (timeout) or some
other rejection, with its message. -/
structure FetchErr where
  isAbortError : Bool
  message : String
deriving DecidableEq, Repr

/-- Per-attempt timeout constant of the sync jobs. -/
def API_TIMEOUT : Nat := 5000

/-- The retry loop of fetchWithRetry. The oracle fwt models
fetchWithTimeout: given the timeout passed to it and the attempt index,
it either resolves with a response or rejects with a transport error or
abort. The loop mirrors the source: a resolved response (2xx or not) is
returned at once; a rejection stores the last error and waits
backoff times (attempt index plus one) before the next iteration; when
the attempts are exhausted the last error is thrown. Returns the
result, the list of waits performed, and the number of attempts made. -/
def fetchLoop (fwt : Nat → Nat → Except FetchErr HttpResponse)
    (backoff attempts i : Nat) (lastErr : Option FetchErr) (delays : List Nat) :
    Except FetchErr HttpResponse × List Nat × Nat :=
  if i < attempts then
    match fwt API_TIMEOUT i with
    | .ok resp => (.ok resp, delays, i + 1)
    | .error err =>
      fetchLoop fwt backoff attempts (i + 1) (some err) (delays ++ [backoff * (i + 1)])
  else
    ((match lastErr with
      | some e => Except.error e
      | none => Except.error ⟨false, "no attempt made"⟩), delays, i)
termination_by attempts - i

/-- fetchWithRetry as both sync jobs call it: 3 attempts, 500 ms base
backoff, each attempt bounded by a 5000 ms timeout of its own. -/
def fetchWithRetry (fwt : Nat → Nat → Except FetchErr HttpResponse) :
    Except FetchErr HttpResponse × List Nat × Nat :=
  fetchLoop fwt 500 3 0 none []

/-- The chunk loop with the remaining list length as structural fuel:
one slice of at most batchSize elements per step. Because batchSize is
positive at every call site, the fuel never runs out before the list. -/
def chunkGo (batchSize : Nat) : Nat → List α → List (List α)
  | 0, _ => []
  | _, [] => []
  | fuel + 1, rows => rows.take batchSize :: chunkGo batchSize fuel (rows.drop batchSize)

/-- The chunking of the batch writers and the lock-step pool: successive
slices of at most batchSize elements. All call sites in the source pass
a positive size (100, 500 or 30). -/
def chunkList (batchSize : Nat) (rows : List α) : List (List α) :=
  if batchSize = 0 then [] else chunkGo batchSize rows.length rows

/-- Result of issuing one chunk against the store: the supabase client
resolves with either success or an error value (it does not throw). -/
inductive StoreResult where
  | ok
  | fail (message : String)
deriving DecidableEq, Repr

/-- batchUpsert as written in src/lib/supabase.ts and in the sync
handler: every chunk is awaited in order and the per-chunk result is
discarded, so the returned trace pairs each issued chunk with the store
result that the source ignores. -/
def batchUpsert (store : List α → StoreResult) (rows : List α) (batchSize : Nat) :
    List (List α × StoreResult) :=
  (chunkList batchSize rows).map (fun batch => (batch, store batch))

/-- batchInsert: textually the same loop as batchUpsert with the insert
operation as its store. -/
def batchInsert (store : List α → StoreResult) (rows : List α) (batchSize : Nat) :
    List (List α × StoreResult) :=
  (chunkList batchSize rows).map (fun batch => (batch, store batch))

/-- batchDelete: the same loop over a list of row ids. -/
def batchDelete (store : List Nat → StoreResult) (ids : List Nat) (batchSize : Nat) :
    List (List Nat × StoreResult) :=
  (chunkList batchSize ids).map (fun batch => (batch, store batch))

/-- The failure value the specification claims for the batch writer. -/
structure BatchWriteError where
  chunkIndex : Nat
  cause : String
deriving DecidableEq, Repr

/-- Claimed contract of the batch writer, written from the words of the
specification for comparison with the implemented writers: issue chunks
sequentially and halt at the first failing chunk with a BatchWriteError
carrying that chunk index and cause. -/
def writeChunkedClaimGo (store : List α → StoreResult) (chunks : List (List α))
    (idx : Nat) (acc : List (List α)) : Except BatchWriteError (List (List α)) :=
  match chunks with
  | [] => .ok acc.reverse
  | c :: rest =>
    match store c with
    | .ok => writeChunkedClaimGo store rest (idx + 1) (c :: acc)
    | .fail msg => .error ⟨idx, msg⟩

/-- Claimed batch-writer contract at the top level (see
writeChunkedClaimGo). -/
def writeChunkedClaim (store : List α → StoreResult) (rows : List α)
    (chunkSize : Nat) : Except BatchWriteError (List (List α)) :=
  writeChunkedClaimGo store (chunkList chunkSize rows) 0 []

/-- Concurrency ceiling of the sync handler. -/
def PARALLEL_LIMIT : Nat := 30

/-- Wall-clock model of the batch loop in the sync handler: the roster
is sliced into lock-step batches of the given limit, each batch is
awaited as a whole (Promise.all), so a batch costs the maximum duration
of its members and the batches run one after another. -/
def lockStepTime (limit : Nat) (durations : List Nat) : Nat :=
  ((chunkList limit durations).map (fun b => b.foldr max 0)).sum

/-- Hand the next task to the earliest-free worker: add the duration to
the first minimal entry of the worker finish-time list. -/
def assignToEarliest : List Nat → Nat → List Nat
  | [], _ => []
  | w :: ws, d => if ws.all (fun x => w ≤ x) then (w + d) :: ws else w :: assignToEarliest ws d

/-- Wall-clock model written from the words of the claim, for comparison
with lockStepTime: a pull-based pool in which each of the ceiling many
workers takes the next unprocessed entity as soon as it is free; the
makespan is the latest worker finish time. -/
def pullPoolTime (ceiling : Nat) (durations : List Nat) : Nat :=
  (durations.foldl assignToEarliest (List.replicate ceiling 0)).foldr max 0

/-- Strip one carriage return that preceded a newline. -/
def stripCR (l : String) : String :=
  if lastCharIs '\r' l then dropLastChar l else l

/-- The regex split on carriage-return-optional newline used by the
decay fetcher: split on newlines, and every piece except the last had a
newline after it, so a trailing carriage return of such a piece was part
of the separator. -/
def splitRN (data : String) : List String :=
  let parts := jsSplit '\n' data
  parts.dropLast.map stripCR ++ parts.drop (parts.length - 1)

/-- Remove one leading and one trailing double quote, as the regex
replace in the decay fetcher does. -/
def stripOuterQuotes (s : String) : String :=
  let s1 := if headCharIs '\"' s then dropFirstChar s else s
  if lastCharIs '\"' s1 then dropLastChar s1 else s1

/-- CSV parsing of the decay feed: split into lines, drop empty lines,
require more than one line (the first is the header and is skipped),
then for each row take the first comma-separated column, reject an
empty one, trim it, strip surrounding quotes and parse it as a decimal
integer, dropping unparsable rows. -/
def parseDecayedCSV (data : String) : List Int :=
  let lines := (splitRN data).filter (fun l => l ≠ "")
  if lines.length ≤ 1 then []
  else
    (lines.drop 1).filterMap (fun line =>
      let cols := jsSplit ',' line
      let c0 := cols.headD ""
      if c0 = "" then none
      else jsParseInt (stripOuterQuotes (jsTrim c0)))

/-- A satellite row as the decay job sees it. -/
structure SatRow where
  id : Nat
  norad_id : Int
  status : String
deriving DecidableEq, Repr

/-- The update filter of one decay chunk: catalog number in the batch
and status not already decayed. -/
def decayMatch (batch : List Int) (s : SatRow) : Bool :=
  batch.contains s.norad_id && s.status != "decayed"

/-- One chunked update of the decay job: set status to decayed on every
matching row and report how many rows the store changed (the length of
the returned id selection). -/
def decayChunk (db : List SatRow) (batch : List Int) : List SatRow × Nat :=
  (db.map (fun s => if decayMatch batch s then { s with status := "decayed" } else s),
   db.countP (decayMatch batch))

/-- One iteration of the decay batch loop: apply the chunk to the store
state and add its changed-row count to the running total. -/
def decayStep (acc : List SatRow × Nat) (batch : List Int) : List SatRow × Nat :=
  let step := decayChunk acc.1 batch
  (step.1, acc.2 + step.2)

/-- The decay run over a parsed catalog-number list: process batches of
500 in order, accumulating the total changed-row count. -/
def decayRun (db : List SatRow) (ids : List Int) : List SatRow × Nat :=
  (chunkList 500 ids).foldl decayStep (db, 0)

/-- Specification-side description of what the decay run does to one
row: a row whose catalog number occurs anywhere in the feed ends up
decayed, every other row is untouched. -/
def markDecayed (ids : List Int) (s : SatRow) : SatRow :=
  if ids.contains s.norad_id then { s with status := "decayed" } else s

/-- A roster entry of the sync handler. -/
structure SatInfo where
  id : Nat
  norad_id : Int
  name : String
deriving DecidableEq, Repr

/-- The transmitter-feed response after JSON decoding, with the bare
list and results-envelope shapes already normalised to a list as the
source does. -/
structure TxResponse where
  ok : Bool
  entries : List ApiTx
deriving DecidableEq, Repr

/-- The transmitter sub-pipeline of processSatellite: fetch or JSON
failures are caught inside it and mapped to null, a non-2xx response is
null, otherwise the reconciliation diff runs and its counts are
reported. -/
def txPipeline (satelliteId : Nat) (existingTransmitters : List ExistingTx)
    (fetchResult : Except String TxResponse) :
    Option (Nat × Nat × Nat) × TxDiff :=
  match fetchResult with
  | .error _ => (none, ⟨[], [], []⟩)
  | .ok resp =>
    if !resp.ok then (none, ⟨[], [], []⟩)
    else
      let d := txDiff satelliteId existingTransmitters resp.entries
      (some (d.inserts.length, d.updates.length, d.deletes.length), d)

/-- The per-entity outcome record of the sync handler (elapsed time is
omitted from the model). -/
structure RunOutcome where
  name : String
  success : Bool
  tleUpdated : Bool
  transmittersAdded : Nat
  transmittersUpdated : Nat
  transmittersRemoved : Nat
  errorText : Option String
deriving DecidableEq, Repr

/-- The per-entity contribution to the shared pending-write buffers. -/
structure PendingWrites where
  tleUpserts : List TLEUpsert
  txInserts : List TxInsertRow
  txUpdates : List TxUpdateRow
  txDeletes : List Nat
deriving DecidableEq, Repr

/-- processSatellite of the sync handler, over explicit fetch results:
runs the two sub-pipelines (whose internal catches swallow feed
failures), fills the outcome from whatever each sub-pipeline reported,
and returns the pending writes this entity appended. Nothing between
the sub-pipeline catches and the outer catch can throw, so the outcome
of a feed failure keeps success true and carries no error text. -/
def processSatellite (sat : SatInfo) (existingTLE : Option TLERow)
    (existingTransmitters : List ExistingTx)
    (tleFetch : Except String HttpResponse) (txFetch : Except String TxResponse) :
    RunOutcome × PendingWrites :=
  let tleRes := tlePipeline sat.id existingTLE tleFetch
  let txRes := txPipeline sat.id existingTransmitters txFetch
  let counts := txRes.1.getD (0, 0, 0)
  ({ name := sat.name
     success := true
     tleUpdated := tleRes.1 == TLEOutcome.updated
     transmittersAdded := counts.1
     transmittersUpdated := counts.2.1
     transmittersRemoved := counts.2.2
     errorText := none },
   { tleUpserts := tleRes.2
     txInserts := txRes.2.inserts
     txUpdates := txRes.2.updates
     txDeletes := txRes.2.deletes })

/-- One roster entry together with its snapshot rows and the results of
its two feed fetches. -/
structure SatJob where
  sat : SatInfo
  existingTLE : Option TLERow
  existingTransmitters : List ExistingTx
  tleFetch : Except String HttpResponse
  txFetch : Except String TxResponse

/-- Outcome of one job. -/
def jobOutcome (j : SatJob) : RunOutcome :=
  (processSatellite j.sat j.existingTLE j.existingTransmitters j.tleFetch j.txFetch).1

/-- The outcome list of a whole run: one outcome per roster entry, each
a function of that entry alone. -/
def runOutcomes (jobs : List SatJob) : List RunOutcome :=
  jobs.map jobOutcome

/-! Concrete fixtures used by the example conjuncts, counterexamples
and witnesses below. -/

/-- First element line with a 1998 epoch (year field 98). -/
def tleLine98 : String :=
  "1 25544U 98067A   98290.54791667  .00001234  00000-0  29837-4 0  9991"

/-- First element line with a 2024 epoch (year field 24). -/
def tleLine24 : String :=
  "1 25544U 98067A   24290.54791667  .00001234  00000-0  29837-4 0  9991"

/-- First element line at the pivot boundary (year field 57). -/
def tleLine57 : String :=
  "1 25544U 98067A   57290.54791667  .00001234  00000-0  29837-4 0  9991"

/-- First element line just below the pivot (year field 56). -/
def tleLine56 : String :=
  "1 25544U 98067A   56290.54791667  .00001234  00000-0  29837-4 0  9991"

/-- A 3-line TLE body: name line, then the two element lines. -/
def tleBody3 : String :=
  "ISS (ZARYA)\n" ++ tleLine24 ++ "\n2 25544  51.6400 208.9163 0006317  69.9862 25.2906 15.49815350"

/-- Existing transmitter row A of the worked reconciliation example. -/
def exTxA : ExistingTx :=
  ⟨11, "A", JSVal.str "FM", true, JSVal.vnull, JSVal.vnull, JSVal.vnull, JSVal.vnull⟩

/-- Existing transmitter row B of the worked reconciliation example. -/
def exTxB : ExistingTx :=
  ⟨12, "B", JSVal.str "FM", true, JSVal.vnull, JSVal.vnull, JSVal.vnull, JSVal.vnull⟩

/-- Feed entry B with a changed mode (B prime of the example). -/
def apiTxB2 : ApiTx :=
  ⟨some "B", JSVal.str "CW", some true, JSVal.vnull, JSVal.vnull, JSVal.vnull, JSVal.vnull⟩

/-- Feed entry C, absent from the existing set. -/
def apiTxC : ApiTx :=
  ⟨some "C", JSVal.str "FM", some true, JSVal.vnull, JSVal.vnull, JSVal.vnull, JSVal.vnull⟩

/-- First of two feed entries sharing the description D. -/
def apiTxD1 : ApiTx :=
  ⟨some "D", JSVal.str "A", some true, JSVal.vnull, JSVal.vnull, JSVal.vnull, JSVal.vnull⟩

/-- Second of two feed entries sharing the description D. -/
def apiTxD2 : ApiTx :=
  ⟨some "D", JSVal.str "B", some true, JSVal.vnull, JSVal.vnull, JSVal.vnull, JSVal.vnull⟩

/-- Existing row with a stored uplink_low of 0. -/
def exTxZero : ExistingTx :=
  ⟨21, "Z", JSVal.vnull, true, JSVal.num 0, JSVal.vnull, JSVal.vnull, JSVal.vnull⟩

/-- Feed entry with the same description and the same uplink_low of 0. -/
def apiTxZero : ApiTx :=
  ⟨some "Z", JSVal.vnull, some true, JSVal.num 0, JSVal.vnull, JSVal.vnull, JSVal.vnull⟩

/-- A roster entry fixture. -/
def satEx : SatInfo := ⟨1, 25544, "ISS"⟩

/-- A store operation that fails on every chunk. -/
def failingStore : List Nat → StoreResult := fun _ => StoreResult.fail "boom"

/-- 150 rows: two chunks of 100 when chunked by 100. -/
def rows150 : List Nat := List.range 150

/-- A fetch oracle whose every attempt times out. -/
def allFailFwt : Nat → Nat → Except FetchErr HttpResponse :=
  fun _ _ => Except.error ⟨true, "timeout"⟩

/-- The decay CSV example: header row, one quoted catalog number, one
bare catalog number. -/
def decayCSVExample : String := "NORAD_CAT_ID,OBJECT_NAME\r\n\"10\",FOO\r\n20,BAR"

/-- Decay store fixture: entity 10 active, entity 20 already decayed. -/
def decayDbExample : List SatRow := [⟨1, 10, "active"⟩, ⟨2, 20, "decayed"⟩]

/-! Helper lemmas shared by several claims. -/

/-- With enough fuel, concatenating the chunks gives back the rows. -/
theorem chunkGo_flatten (batchSize : Nat) (hbs : batchSize ≠ 0) (fuel : Nat) :
    ∀ rows : List α, rows.length ≤ fuel → (chunkGo batchSize fuel rows).flatten = rows := by
  induction fuel with
  | zero =>
    intro rows hf
    cases rows with
    | nil => rfl
    | cons x xs => simp at hf
  | succ n ih =>
    intro rows hf
    cases rows with
    | nil => rfl
    | cons x xs =>
      show ((x :: xs).take batchSize :: chunkGo batchSize n ((x :: xs).drop batchSize)).flatten
        = x :: xs
      rw [List.flatten_cons, ih _ ?_, List.take_append_drop]
      simp only [List.length_drop, List.length_cons]
      have := Nat.le_of_succ_le_succ hf
      omega

/-- Every chunk produced by the fuelled loop has at most batchSize
elements. -/
theorem chunkGo_mem_length_le (batchSize : Nat) (fuel : Nat) :
    ∀ rows : List α, ∀ b ∈ chunkGo batchSize fuel rows, b.length ≤ batchSize := by
  induction fuel with
  | zero =>
    intro rows b hb
    simp [chunkGo] at hb
  | succ n ih =>
    intro rows b hb
    cases rows with
    | nil => simp [chunkGo] at hb
    | cons x xs =>
      have hb2 : b = (x :: xs).take batchSize
          ∨ b ∈ chunkGo batchSize n ((x :: xs).drop batchSize) := List.mem_cons.mp hb
      rcases hb2 with h1 | h2
      · subst h1
        exact List.length_take_le _ _
      · exact ih _ b h2

/-- Concatenating the chunks gives back the original rows. -/
theorem chunkList_flatten (batchSize : Nat) (hbs : batchSize ≠ 0) (rows : List α) :
    (chunkList batchSize rows).flatten = rows := by
  rw [chunkList, if_neg hbs]
  exact chunkGo_flatten batchSize hbs rows.length rows (Nat.le_refl _)

/-- Every chunk has at most batchSize elements. -/
theorem chunkList_mem_length_le (batchSize : Nat) (hbs : batchSize ≠ 0) (rows : List α)
    (b : List α) (hb : b ∈ chunkList batchSize rows) : b.length ≤ batchSize := by
  rw [chunkList, if_neg hbs] at hb
  exact chunkGo_mem_length_le batchSize rows.length rows b hb

/-- The existing-transmitter map misses a description exactly when no
existing row carries it. -/
theorem mapGetLast_isNone_iff (l : List ExistingTx) (d : String) :
    (mapGetLast l d).isNone = true ↔ ∀ ex ∈ l, ex.description ≠ d := by
  unfold mapGetLast
  rw [Option.isNone_iff_eq_none, List.getLast?_eq_none_iff, List.filter_eq_nil_iff]
  simp

/-- A hit in the existing-transmitter map is an existing row with the
looked-up description. -/
theorem mapGetLast_mem (l : List ExistingTx) (d : String) (ex : ExistingTx)
    (h : mapGetLast l d = some ex) : ex ∈ l ∧ ex.description = d := by
  unfold mapGetLast at h
  have hm := List.mem_of_getLast?_eq_some h
  have := List.mem_filter.mp hm
  exact ⟨this.1, by simpa using this.2⟩

/-- With pairwise-distinct existing descriptions, the map lookup finds
exactly the unique existing row carrying the description. -/
theorem mapGetLast_eq_some_iff (l : List ExistingTx)
    (hnodup : (l.map ExistingTx.description).Nodup) (d : String) (ex : ExistingTx) :
    mapGetLast l d = some ex ↔ ex ∈ l ∧ ex.description = d := by
  constructor
  · exact mapGetLast_mem l d ex
  · rintro ⟨hex, hd⟩
    have hmemf : ex ∈ l.filter (fun tx => tx.description == d) :=
      List.mem_filter.mpr ⟨hex, by simp [hd]⟩
    have hall : ∀ y ∈ l.filter (fun tx => tx.description == d), y = ex := by
      intro y hy
      have hy2 := List.mem_filter.mp hy
      have hyd : y.description = ex.description := by
        have : y.description = d := by simpa using hy2.2
        rw [this, hd]
      exact List.inj_on_of_nodup_map hnodup hy2.1 hex hyd
    unfold mapGetLast
    cases hf : l.filter (fun tx => tx.description == d) with
    | nil =>
      rw [hf] at hmemf
      cases hmemf
    | cons y ys =>
      have hy : y = ex := hall y (by rw [hf]; exact List.mem_cons_self _ _)
      have hys : ys = [] := by
        cases hzs : ys with
        | nil => rfl
        | cons z zs =>
          have hz : z = ex := by
            apply hall z
            rw [hf, hzs]
            exact List.mem_cons_of_mem _ (List.mem_cons_self _ _)
          have hlnd : l.Nodup := hnodup.of_map _
          have hfnd := (hlnd.filter (fun tx => tx.description == d))
          rw [hf, hzs] at hfnd
          have hnotin := (List.nodup_cons.mp hfnd).1
          exact absurd (by rw [hy, ← hz]; exact List.mem_cons_self _ _) hnotin
      subst hy
      subst hys
      rfl

/-- Pointwise additive split of countP: when the indicator of r is the
sum of the indicators of p and q, the counts add up. -/
theorem countP_split (p q r : α → Bool)
    (hpt : ∀ a, ((if p a then 1 else 0) + (if q a then 1 else 0) : Nat)
      = if r a then 1 else 0) (l : List α) :
    l.countP p + l.countP q = l.countP r := by
  induction l with
  | nil => simp
  | cons a t ih =>
    rw [List.countP_cons, List.countP_cons, List.countP_cons]
    have := hpt a
    omega

/-- Rewriting the status of an already-decayed row changes nothing. -/
theorem setStatus_self (s : SatRow) (h : s.status = "decayed") :
    { s with status := "decayed" } = s := by
  cases s
  simp_all

/-- Membership in an appended list of catalog numbers, at the Bool
level used by the store filter. -/
theorem contains_append_int (b J : List Int) (x : Int) :
    (b ++ J).contains x = (b.contains x || J.contains x) := by
  simp [List.elem_eq_mem, List.mem_append]

/-- Count contributed by one decay chunk plus the count of the remaining
feed over the updated store equals the count of the combined feed over
the original store. -/
theorem decay_step_count (b J : List Int) (db : List SatRow) :
    db.countP (decayMatch b)
      + (db.map (fun s => if decayMatch b s then { s with status := "decayed" } else s)).countP
          (fun s => J.contains s.norad_id && s.status != "decayed")
      = db.countP (fun s => (b ++ J).contains s.norad_id && s.status != "decayed") := by
  induction db with
  | nil => simp
  | cons s t ih =>
    rw [List.map_cons, List.countP_cons, List.countP_cons, List.countP_cons]
    have hpt : ((if decayMatch b s then 1 else 0) : Nat)
        + (if J.contains (if decayMatch b s then { s with status := "decayed" } else s).norad_id
             && ((if decayMatch b s then { s with status := "decayed" } else s).status != "decayed")
           then 1 else 0)
        = if (b ++ J).contains s.norad_id && s.status != "decayed" then 1 else 0 := by
      by_cases hb : s.norad_id ∈ b <;> by_cases hd : s.status = "decayed" <;>
        simp [decayMatch, hb, hd, List.elem_eq_mem, List.mem_append]
    omega

/-- Marking one chunk and then the rest of the feed is marking the
combined feed, row by row. -/
theorem markDecayed_step (b J : List Int) (s : SatRow) :
    markDecayed J (if decayMatch b s then { s with status := "decayed" } else s)
      = markDecayed (b ++ J) s := by
  by_cases hd : s.status = "decayed"
  · have hm : decayMatch b s = false := by simp [decayMatch, hd]
    rw [hm]
    by_cases hj : s.norad_id ∈ J <;>
      simp [markDecayed, List.elem_eq_mem, List.mem_append, hj, hd, setStatus_self s hd]
  · by_cases hb : s.norad_id ∈ b
    · have hm : decayMatch b s = true := by
        simp [decayMatch, List.elem_eq_mem, hb, hd]
      rw [hm]
      by_cases hj : s.norad_id ∈ J <;>
        simp [markDecayed, List.elem_eq_mem, List.mem_append, hb, hj]
    · have hm : decayMatch b s = false := by
        simp [decayMatch, List.elem_eq_mem, hb]
      rw [hm]
      by_cases hj : s.norad_id ∈ J <;>
        simp [markDecayed, List.elem_eq_mem, List.mem_append, hb, hj]

/-- The store state after folding the decay chunks: every row whose
catalog number occurs in some chunk is decayed, other rows unchanged. -/
theorem decayFold_fst (bs : List (List Int)) (db : List SatRow) (c : Nat) :
    (bs.foldl decayStep (db, c)).1 = db.map (markDecayed bs.flatten) := by
  induction bs generalizing db c with
  | nil =>
    simp only [List.foldl_nil, List.flatten_nil]
    have h : ∀ s ∈ db, markDecayed [] s = s := by
      intro s _
      simp [markDecayed]
    rw [List.map_congr_left h, List.map_id']
  | cons b bs ih =>
    rw [List.foldl_cons,
      show decayStep (db, c) b = ((decayChunk db b).1, c + (decayChunk db b).2) from rfl, ih]
    simp only [decayChunk, List.flatten_cons, List.map_map]
    apply List.map_congr_left
    intro s _
    simp only [Function.comp]
    exact markDecayed_step b bs.flatten s

/-- The accumulated count after folding the decay chunks: the rows of
the original store whose catalog number occurs in some chunk and whose
status was not already decayed. -/
theorem decayFold_snd (bs : List (List Int)) (db : List SatRow) (c : Nat) :
    (bs.foldl decayStep (db, c)).2
      = c + db.countP (fun s => (bs.flatten).contains s.norad_id && s.status != "decayed") := by
  induction bs generalizing db c with
  | nil =>
    simp [List.countP_eq_zero]
  | cons b bs ih =>
    rw [List.foldl_cons,
      show decayStep (db, c) b = ((decayChunk db b).1, c + (decayChunk db b).2) from rfl, ih]
    simp only [decayChunk, List.flatten_cons]
    have h := decay_step_count b bs.flatten db
    omega

/-- C8: the decay job parses the CSV feed skipping the header row,
taking the optionally quoted first column as catalog number; the run
updates to decayed exactly the matching rows not already decayed; the
returned count equals the number of rows actually changed (the worked
example yields 1); and re-running with the same feed changes zero
rows. -/
theorem decay_job_spec (db : List SatRow) (ids : List Int) :
    parseDecayedCSV decayCSVExample = [10, 20] ∧
    (decayRun db ids).2
      = db.countP (fun s => ids.contains s.norad_id && s.status != "decayed") ∧
    (decayRun db ids).1 = db.map (markDecayed ids) ∧
    (decayRun decayDbExample (parseDecayedCSV decayCSVExample)).2 = 1 ∧
    (decayRun (decayRun db ids).1 ids).2 = 0 := by
  have hstate : ∀ d : List SatRow, (decayRun d ids).1 = d.map (markDecayed ids) := by
    intro d
    rw [decayRun, decayFold_fst]
    simp only [chunkList_flatten 500 (by decide)]
  have hcount : ∀ d : List SatRow, (decayRun d ids).2
      = d.countP (fun s => ids.contains s.norad_id && s.status != "decayed") := by
    intro d
    rw [decayRun, decayFold_snd]
    simp only [chunkList_flatten 500 (by decide), Nat.zero_add]
  refine ⟨by decide, hcount db, hstate db, by decide, ?_⟩
  rw [hcount _, hstate db]
  apply List.countP_eq_zero.mpr
  intro s hs
  rcases List.mem_map.mp hs with ⟨s0, _, rfl⟩
  by_cases hc : s0.norad_id ∈ ids <;> simp [markDecayed, List.elem_eq_mem, hc]

/-- C1: the century of a persisted epoch must follow the pivot rule
(2-digit year at least 57 gives 19xx, otherwise 20xx; 98 to 1998, 24 to
2024, 57 to 1957, 56 to 2056). Evidence for the code bug: the sync.js
path whose upserts carry epochSyncJs hard-codes the 20 century and
yields 2098 for year 98, while the app-router path epochPivot implements
the claimed rule and satisfies all four examples. -/
theorem epoch_century_pivot_bug :
    epochSyncJs tleLine98 = "2098-290.54791667" ∧
    epochSyncJs tleLine98 ≠ "1998-290.54791667" ∧
    epochPivot tleLine98 = "1998-290.54791667" ∧
    epochPivot tleLine24 = "2024-290.54791667" ∧
    epochPivot tleLine57 = "1957-290.54791667" ∧
    epochPivot tleLine56 = "2056-290.54791667" ∧
    epochSyncJs tleLine24 = epochPivot tleLine24 := by decide

set_option maxRecDepth 4000 in
/-- C6 counterexample: with a store that fails every chunk and 150
pending rows, the implemented writer still issues both 100-row chunks
and surfaces no error, while the claimed halting contract stops after
chunk 0 with a BatchWriteError; so a chunk failure neither fails the
operation nor halts its remaining chunks. -/
theorem batch_writer_no_halt_cex :
    (batchUpsert failingStore rows150 100).length = 2 ∧
    ((batchUpsert failingStore rows150 100).map Prod.snd)
      = [StoreResult.fail "boom", StoreResult.fail "boom"] ∧
    writeChunkedClaim failingStore rows150 100 = Except.error ⟨0, "boom"⟩ :=
  ⟨by decide, by decide, rfl⟩

/-- C6 amended: every batch writer issues its store operation in
sequential chunks of at most 100 rows that concatenate exactly to the
requested rows, but the per-chunk store result is ignored: the chunks
issued do not depend on store failures, no BatchWriteError is surfaced,
and (all three operation types sharing this loop) later operation types
always still flush. -/
theorem batch_writer_chunking (store : List α → StoreResult) (rows : List α) :
    (batchUpsert store rows 100).map Prod.fst = chunkList 100 rows ∧
    ((batchUpsert store rows 100).map Prod.fst).flatten = rows ∧
    (∀ b ∈ (batchUpsert store rows 100).map Prod.fst, b.length ≤ 100) ∧
    (∀ st2 : List α → StoreResult,
      (batchUpsert store rows 100).map Prod.fst = (batchUpsert st2 rows 100).map Prod.fst) ∧
    batchInsert store rows 100 = batchUpsert store rows 100 ∧
    (∀ ids : List Nat, ∀ st : List Nat → StoreResult,
      batchDelete st ids 100 = batchUpsert st ids 100) := by
  have hfst : ∀ st : List α → StoreResult,
      (batchUpsert st rows 100).map Prod.fst = chunkList 100 rows := by
    intro st
    rw [batchUpsert, List.map_map]
    exact List.map_id'' (fun b => rfl) _
  refine ⟨hfst store, ?_, ?_, ?_, rfl, fun ids st => rfl⟩
  · rw [hfst store]
    exact chunkList_flatten 100 (by decide) rows
  · intro b hb
    rw [hfst store] at hb
    exact chunkList_mem_length_le 100 (by decide) rows b hb
  · intro st2
    rw [hfst store, hfst st2]

/-- Witness for the amended batch-writer theorem at a concrete store
and row list. -/
theorem batch_writer_chunking_witness :
    ((batchUpsert (fun _ => StoreResult.ok) [1, 2, 3] 100).map Prod.fst).flatten = [1, 2, 3] ∧
    ([1, 2, 3] : List Nat).length ≤ 100 := by
  refine ⟨(batch_writer_chunking (fun _ => StoreResult.ok) [1, 2, 3]).2.1, ?_⟩
  exact (batch_writer_chunking (fun _ => StoreResult.ok) [1, 2, 3]).2.2.1 [1, 2, 3] (by decide)

/-- C9 counterexample: the handler loop is lock-step, not a pull-based
pool. With ceiling 2 and durations 10,1,1,1,1 the lock-step schedule
embedded from the handler takes 12 time units while the claimed
pull-based pool takes 10: the slow entity stalls otherwise-idle
capacity. -/
theorem lockstep_stalls_cex :
    lockStepTime 2 [10, 1, 1, 1, 1] = 12 ∧
    pullPoolTime 2 [10, 1, 1, 1, 1] = 10 ∧
    lockStepTime 2 [10, 1, 1, 1, 1] ≠ pullPoolTime 2 [10, 1, 1, 1, 1] := by decide

/-- C9 amended: the orchestrator processes the roster in sequential
lock-step batches of at most PARALLEL_LIMIT = 30 entities, awaiting
each batch in full before the next starts: at most 30 pipelines are in
flight at once and the batches concatenate exactly to the roster; with
ceiling 2 and 5 equal-delay entities the wall time is still
3 = ceil(5 by 2) batch rounds, but a slow entity delays its whole batch
round (see the counterexample). -/
theorem handler_lockstep_batches (roster : List α) (d : Nat) :
    PARALLEL_LIMIT = 30 ∧
    (chunkList PARALLEL_LIMIT roster).flatten = roster ∧
    (∀ b ∈ chunkList PARALLEL_LIMIT roster, b.length ≤ PARALLEL_LIMIT) ∧
    lockStepTime 2 (List.replicate 5 d) = 3 * d := by
  refine ⟨rfl, chunkList_flatten _ (by decide) _,
    fun b hb => chunkList_mem_length_le _ (by decide) _ b hb, ?_⟩
  rw [lockStepTime, show (List.replicate 5 d) = [d, d, d, d, d] from rfl,
    show chunkList 2 [d, d, d, d, d] = [[d, d], [d, d], [d]] from rfl]
  simp only [List.map_cons, List.map_nil, List.foldr_cons, List.foldr_nil,
    Nat.max_self, Nat.max_zero, List.sum_cons, List.sum_nil]
  omega

/-- Witness for the amended lock-step theorem at a concrete roster. -/
theorem handler_lockstep_batches_witness :
    (chunkList PARALLEL_LIMIT (List.range 31)).flatten = List.range 31 ∧
    ((List.range 31).take 30).length ≤ PARALLEL_LIMIT := by
  refine ⟨(handler_lockstep_batches (List.range 31) 0).2.1, ?_⟩
  exact (handler_lockstep_batches (List.range 31) 0).2.2.1 _ (by decide)

/-- C7: fetchWithRetry makes at most 3 attempts, each invoked with its
own API_TIMEOUT = 5000 ms timeout; after failed attempt number n it
waits 500 times n before the next attempt; exhausting all attempts
fails with the last cause; and any resolved response, 2xx or not, is
returned at the first resolving attempt without retry, so only
transport failures and timeouts (the rejections) trigger retry. -/
theorem fetchWithRetry_spec (fwt : Nat → Nat → Except FetchErr HttpResponse)
    (r : HttpResponse) (e0 e1 e2 : FetchErr) :
    API_TIMEOUT = 5000 ∧
    (fetchWithRetry fwt).2.2 ≤ 3 ∧
    (fwt API_TIMEOUT 0 = Except.ok r → fetchWithRetry fwt = (Except.ok r, [], 1)) ∧
    (fwt API_TIMEOUT 0 = Except.error e0 → fwt API_TIMEOUT 1 = Except.ok r →
      fetchWithRetry fwt = (Except.ok r, [500], 2)) ∧
    (fwt API_TIMEOUT 0 = Except.error e0 → fwt API_TIMEOUT 1 = Except.error e1 →
      fwt API_TIMEOUT 2 = Except.ok r →
      fetchWithRetry fwt = (Except.ok r, [500, 1000], 3)) ∧
    (fwt API_TIMEOUT 0 = Except.error e0 → fwt API_TIMEOUT 1 = Except.error e1 →
      fwt API_TIMEOUT 2 = Except.error e2 →
      fetchWithRetry fwt = (Except.error e2, [500, 1000, 1500], 3)) := by
  refine ⟨rfl, ?_, ?_, ?_, ?_, ?_⟩
  · rcases h0 : fwt API_TIMEOUT 0 with r0 | f0 <;>
      rcases h1 : fwt API_TIMEOUT 1 with r1 | f1 <;>
      rcases h2 : fwt API_TIMEOUT 2 with r2 | f2 <;>
      simp [fetchWithRetry, fetchLoop, h0, h1, h2]
  · intro h0
    simp [fetchWithRetry, fetchLoop, h0]
  · intro h0 h1
    simp [fetchWithRetry, fetchLoop, h0, h1]
  · intro h0 h1 h2
    simp [fetchWithRetry, fetchLoop, h0, h1, h2]
  · intro h0 h1 h2
    simp [fetchWithRetry, fetchLoop, h0, h1, h2]

/-- Witness for the retry theorem: the all-timeouts oracle exhausts the
3 attempts, waits 500, 1000 and 1500 between and after them, and fails
with the last cause. -/
theorem fetchWithRetry_spec_witness :
    fetchWithRetry allFailFwt = (Except.error ⟨true, "timeout"⟩, [500, 1000, 1500], 3) :=
  (fetchWithRetry_spec allFailFwt ⟨true, ""⟩ ⟨true, "timeout"⟩ ⟨true, "timeout"⟩
    ⟨true, "timeout"⟩).2.2.2.2.2 rfl rfl rfl

/-- C2: for an entity whose existing transmitter set is keyed by
pairwise-distinct descriptions, the reconciliation emits exactly: an
insert for each feed entry whose key is absent from the existing set,
an update by the existing row id for each feed entry matching an
existing description where mode, liveness or a frequency bound differs
(after the null coercion the code applies), and a delete by row id for
each existing row whose description is absent from the feed; the worked
example with existing A,B and feed B-changed,C yields insert C, update
of the row of B by its id, delete of the row of A. -/
theorem txDiff_reconciliation_spec (sid : Nat) (existing : List ExistingTx)
    (feed : List ApiTx) (hdesc : (existing.map ExistingTx.description).Nodup) :
    (∀ row, row ∈ (txDiff sid existing feed).inserts ↔
      ∃ tx ∈ feed, (∀ ex ∈ existing, ex.description ≠ descKey tx) ∧ row = insertRowOf sid tx) ∧
    (∀ u, u ∈ (txDiff sid existing feed).updates ↔
      ∃ tx ∈ feed, ∃ ex ∈ existing, ex.description = descKey tx ∧ hasChanged ex tx = true ∧
        u = updateRowOf ex.id tx) ∧
    (∀ i, i ∈ (txDiff sid existing feed).deletes ↔
      ∃ ex ∈ existing, ex.id = i ∧ ∀ tx ∈ feed, descKey tx ≠ ex.description) ∧
    txDiff 1 [exTxA, exTxB] [apiTxB2, apiTxC]
      = { inserts := [insertRowOf 1 apiTxC], updates := [updateRowOf 12 apiTxB2],
          deletes := [11] } := by
  refine ⟨?_, ?_, ?_, by decide⟩
  · intro row
    simp only [txDiff, List.mem_map, List.mem_filter]
    constructor
    · rintro ⟨tx, ⟨htx, hnone⟩, rfl⟩
      exact ⟨tx, htx, (mapGetLast_isNone_iff existing (descKey tx)).mp hnone, rfl⟩
    · rintro ⟨tx, htx, hno, rfl⟩
      exact ⟨tx, ⟨htx, (mapGetLast_isNone_iff existing (descKey tx)).mpr hno⟩, rfl⟩
  · intro u
    simp only [txDiff, List.mem_filterMap]
    constructor
    · rintro ⟨tx, htx, hg⟩
      rcases hm : mapGetLast existing (descKey tx) with _ | ex
      · rw [hm] at hg
        change (none : Option TxUpdateRow) = some u at hg
        cases hg
      · rw [hm] at hg
        change (if hasChanged ex tx = true then some (updateRowOf ex.id tx) else none)
          = some u at hg
        have hmem := mapGetLast_mem existing (descKey tx) ex hm
        by_cases hc : hasChanged ex tx = true
        · rw [if_pos hc] at hg
          exact ⟨tx, htx, ex, hmem.1, hmem.2, hc, (Option.some.injEq _ _ ▸ hg).symm⟩
        · rw [if_neg hc] at hg
          cases hg
    · rintro ⟨tx, htx, ex, hex, hd, hc, rfl⟩
      refine ⟨tx, htx, ?_⟩
      rw [(mapGetLast_eq_some_iff existing hdesc (descKey tx) ex).mpr ⟨hex, hd⟩]
      change (if hasChanged ex tx = true then some (updateRowOf ex.id tx) else none) = _
      rw [if_pos hc]
  · intro i
    simp only [txDiff, List.mem_map, List.mem_filter]
    constructor
    · rintro ⟨ex, ⟨hex, hnot⟩, rfl⟩
      refine ⟨ex, hex, rfl, ?_⟩
      intro tx htx
      simp only [Bool.not_eq_true', List.any_eq_false] at hnot
      have := hnot tx htx
      simpa using this
    · rintro ⟨ex, hex, rfl, hall⟩
      refine ⟨ex, ⟨hex, ?_⟩, rfl⟩
      simp only [Bool.not_eq_true', List.any_eq_false]
      intro tx htx
      simpa using hall tx htx

/-- Witness for the reconciliation characterisation at the worked
example. -/
theorem txDiff_reconciliation_spec_witness :
    txDiff 1 [exTxA, exTxB] [apiTxB2, apiTxC]
      = { inserts := [insertRowOf 1 apiTxC], updates := [updateRowOf 12 apiTxB2],
          deletes := [11] } :=
  (txDiff_reconciliation_spec 1 [exTxA, exTxB] [apiTxB2, apiTxC] (by decide)).2.2.2

/-- C3 counterexample: two feed entries with the same new description D
each produce an insert, so the earlier entry in feed order is persisted
too (the later entry is not solely authoritative) and the reconciled
set carries the description D twice: the claimed no-duplicate invariant
fails. -/
theorem txDiff_duplicate_description_cex :
    (txDiff 1 [] [apiTxD1, apiTxD2]).inserts
      = [insertRowOf 1 apiTxD1, insertRowOf 1 apiTxD2] ∧
    (insertRowOf 1 apiTxD1).mode = JSVal.str "A" ∧
    (insertRowOf 1 apiTxD2).mode = JSVal.str "B" ∧
    finalDescriptions 1 [] [apiTxD1, apiTxD2] = ["D", "D"] ∧
    ¬ (finalDescriptions 1 [] [apiTxD1, apiTxD2]).Nodup := by decide

/-- C3 amended: every feed entry is processed independently, so when
descriptions repeat in the feed each absent-description occurrence is
inserted; the reconciled set is free of duplicate descriptions provided
the feed response itself contains no duplicate keys (and the existing
set, as stored, has pairwise-distinct descriptions). -/
theorem txDiff_nodup_after_reconciliation (sid : Nat) (existing : List ExistingTx)
    (feed : List ApiTx)
    (hdesc : (existing.map ExistingTx.description).Nodup)
    (hfeed : (feed.map descKey).Nodup) :
    (finalDescriptions sid existing feed).Nodup := by
  unfold finalDescriptions
  have hins : (txDiff sid existing feed).inserts.map (fun r => r.description)
      = (feed.filter (fun tx => (mapGetLast existing (descKey tx)).isNone)).map descKey := by
    simp only [txDiff, List.map_map]
    rfl
  refine List.Nodup.append ?_ ?_ ?_
  · exact List.Nodup.sublist (List.Sublist.map _ (List.filter_sublist existing)) hdesc
  · rw [hins]
    exact List.Nodup.sublist (List.Sublist.map _ (List.filter_sublist feed)) hfeed
  · intro a ha hb
    rw [hins] at hb
    rcases List.mem_map.mp ha with ⟨ex, hexf, rfl⟩
    rcases List.mem_map.mp hb with ⟨tx, htxf, hkey⟩
    have hexmem : ex ∈ existing := (List.mem_filter.mp hexf).1
    have hp := (List.mem_filter.mp htxf).2
    have hno := (mapGetLast_isNone_iff existing (descKey tx)).mp hp
    exact hno ex hexmem hkey.symm

/-- Witness for the amended no-duplicates theorem at the worked
example. -/
theorem txDiff_nodup_after_reconciliation_witness :
    (finalDescriptions 1 [exTxA, exTxB] [apiTxB2, apiTxC]).Nodup :=
  txDiff_nodup_after_reconciliation 1 [exTxA, exTxB] [apiTxB2, apiTxC] (by decide) (by decide)

/-- C10: feed fields are coerced falsy-to-null before both storage and
comparison: insert and update rows store the coerced value of every
field, a zero frequency bound and an empty-string mode become null, and
an existing stored bound of 0 compared against a feed value of 0 is
classified as changed (a spurious update), because the diff compares
the stored value against the null-coerced feed value. -/
theorem falsy_null_coercion (sid : Nat) (tx : ApiTx) (ex : ExistingTx) :
    ((insertRowOf sid tx).mode = orNull tx.mode ∧
     (insertRowOf sid tx).uplink_low = orNull tx.uplink_low ∧
     (insertRowOf sid tx).uplink_high = orNull tx.uplink_high ∧
     (insertRowOf sid tx).downlink_low = orNull tx.downlink_low ∧
     (insertRowOf sid tx).downlink_high = orNull tx.downlink_high) ∧
    ((updateRowOf sid tx).mode = orNull tx.mode ∧
     (updateRowOf sid tx).uplink_low = orNull tx.uplink_low ∧
     (updateRowOf sid tx).uplink_high = orNull tx.uplink_high ∧
     (updateRowOf sid tx).downlink_low = orNull tx.downlink_low ∧
     (updateRowOf sid tx).downlink_high = orNull tx.downlink_high) ∧
    orNull (JSVal.num 0) = JSVal.vnull ∧
    orNull (JSVal.str "") = JSVal.vnull ∧
    (tx.uplink_low = JSVal.num 0 → (insertRowOf sid tx).uplink_low = JSVal.vnull) ∧
    (tx.mode = JSVal.str "" → (insertRowOf sid tx).mode = JSVal.vnull) ∧
    (ex.uplink_low = JSVal.num 0 → tx.uplink_low = JSVal.num 0 →
      hasChanged ex tx = true) := by
  refine ⟨⟨rfl, rfl, rfl, rfl, rfl⟩, ⟨rfl, rfl, rfl, rfl, rfl⟩, rfl, rfl, ?_, ?_, ?_⟩
  · intro h
    simp [insertRowOf, orNull, JSVal.falsy, h]
  · intro h
    simp [insertRowOf, orNull, JSVal.falsy, h]
  · intro h1 h2
    simp [hasChanged, h1, h2, orNull, JSVal.falsy]

/-- Witness for the coercion theorem: a stored bound of 0 against a
feed bound of 0 is classified as changed. -/
theorem falsy_null_coercion_witness :
    hasChanged exTxZero apiTxZero = true :=
  (falsy_null_coercion 1 apiTxZero exTxZero).2.2.2.2.2.2 rfl rfl

/-- C4: with a successful fetch (2xx response whose body parses to two
non-empty lines), the orbital diff appends an upsert iff there is no
existing record or either line differs byte-for-byte; an existing
record identical to the fetched lines yields no upsert (idempotence of
diffing), and a missing record yields exactly one upsert keyed by the
entity id and carrying the fetched lines. -/
theorem tle_diff_iff_changed (sid : Nat) (existingTLE : Option TLERow)
    (resp : HttpResponse) (l1 l2 : String)
    (hok : resp.ok = true) (hparse : parseTLELines resp.body = some (l1, l2)) :
    ((tlePipeline sid existingTLE (Except.ok resp)).2 ≠ [] ↔
      (existingTLE = none ∨ ∃ t, existingTLE = some t ∧
        (t.tle_line1 ≠ l1 ∨ t.tle_line2 ≠ l2))) ∧
    (∀ t, existingTLE = some t → t.tle_line1 = l1 → t.tle_line2 = l2 →
      (tlePipeline sid existingTLE (Except.ok resp)).2 = []) ∧
    (existingTLE = none →
      (tlePipeline sid existingTLE (Except.ok resp)).2 =
        [{ satellite_id := sid, tle_line1 := l1, tle_line2 := l2,
           epoch := epochSyncJs l1, source := "celestrak" }]) := by
  have hpipe : tlePipeline sid existingTLE (Except.ok resp)
      = if tleChanged existingTLE l1 l2 then
          (TLEOutcome.updated,
           [{ satellite_id := sid, tle_line1 := l1, tle_line2 := l2,
              epoch := epochSyncJs l1, source := "celestrak" }])
        else (TLEOutcome.unchanged, []) := by
    simp [tlePipeline, hok, hparse]
  refine ⟨?_, ?_, ?_⟩
  · rw [hpipe]
    cases existingTLE with
    | none => simp [tleChanged]
    | some t =>
      simp only [tleChanged]
      by_cases h1 : t.tle_line1 = l1 <;> by_cases h2 : t.tle_line2 = l2 <;>
        simp [h1, h2]
  · intro t ht h1 h2
    rw [hpipe, ht]
    simp [tleChanged, h1, h2]
  · intro h
    rw [hpipe, h]
    simp [tleChanged]

/-- Witness for the orbital-diff theorem: a fresh entity with a 3-line
body yields exactly the upsert of the two element lines. -/
theorem tle_diff_iff_changed_witness :
    (tlePipeline 7 none (Except.ok ⟨true, tleBody3⟩)).2
      = [{ satellite_id := 7, tle_line1 := tleLine24,
           tle_line2 := "2 25544  51.6400 208.9163 0006317  69.9862 25.2906 15.49815350",
           epoch := epochSyncJs tleLine24, source := "celestrak" }] :=
  (tle_diff_iff_changed 7 none ⟨true, tleBody3⟩ tleLine24
    "2 25544  51.6400 208.9163 0006317  69.9862 25.2906 15.49815350"
    rfl (by decide)).2.2 rfl

/-- C5 counterexample: a TLE feed fetch failure is swallowed inside the
feed handler: the entity outcome still reports success and carries no
error text, contrary to the claimed failed outcome with error text. -/
theorem feed_failure_not_failed_outcome_cex :
    (processSatellite satEx none [] (Except.error "fetch failed")
        (Except.ok ⟨true, []⟩)).1.success = true ∧
    (processSatellite satEx none [] (Except.error "fetch failed")
        (Except.ok ⟨true, []⟩)).1.errorText = none := ⟨rfl, rfl⟩

/-- C5 amended: a fetch or parse failure of either feed is caught
inside that feed handler, never escapes the pipeline, and the failed
feed contributes no pending writes and zero counts; the outcome it
yields reports success with no error text (not a failed outcome); each
outcome is a function of its own entity alone, so a failure never
aborts the pool or affects other entities' outcomes. -/
theorem feed_failure_isolation (sat : SatInfo) (etle : Option TLERow)
    (etx : List ExistingTx) (msg : String) (txF : Except String TxResponse)
    (tleF : Except String HttpResponse) (pre post : List SatJob) (j : SatJob) :
    ((processSatellite sat etle etx (Except.error msg) txF).1.success = true ∧
     (processSatellite sat etle etx (Except.error msg) txF).1.errorText = none ∧
     (processSatellite sat etle etx (Except.error msg) txF).1.tleUpdated = false ∧
     (processSatellite sat etle etx (Except.error msg) txF).2.tleUpserts = []) ∧
    ((processSatellite sat etle etx tleF (Except.error msg)).1.success = true ∧
     (processSatellite sat etle etx tleF (Except.error msg)).1.errorText = none ∧
     (processSatellite sat etle etx tleF (Except.error msg)).1.transmittersAdded = 0 ∧
     (processSatellite sat etle etx tleF (Except.error msg)).1.transmittersUpdated = 0 ∧
     (processSatellite sat etle etx tleF (Except.error msg)).1.transmittersRemoved = 0 ∧
     (processSatellite sat etle etx tleF (Except.error msg)).2.txInserts = [] ∧
     (processSatellite sat etle etx tleF (Except.error msg)).2.txUpdates = [] ∧
     (processSatellite sat etle etx tleF (Except.error msg)).2.txDeletes = []) ∧
    runOutcomes (pre ++ j :: post) = runOutcomes pre ++ jobOutcome j :: runOutcomes post ∧
    (runOutcomes (pre ++ j :: post)).length = pre.length + 1 + post.length := by
  refine ⟨⟨rfl, rfl, rfl, rfl⟩, ⟨rfl, rfl, rfl, rfl, rfl, rfl, rfl, rfl⟩, ?_, ?_⟩
  · simp [runOutcomes]
  · simp [runOutcomes]
    omega

end AllMySat
